import Mathlib

/-!
Verification of the wkreport HTML table generator.

The program builds a hard-coded two-row dataset, renders it as an HTML
table with per-cell escaping (CPython html.escape with quote=True), and
prints the result to standard output.  The embedding below models the
characters of Python strings as Lean `List Char` wrapped in `String`.
-/

namespace Wkreport

/-- The apostrophe character (codepoint 39). -/
def apos : Char := Char.ofNat 39

/-- The double-quote character (codepoint 34). -/
def quot : Char := Char.ofNat 34

/-- The five HTML-significant characters escaped by html.escape with quote=True. -/
def specialChars : List Char := ['&', '<', '>', quot, apos]

/-- Python str.replace restricted to a single-character pattern: every
occurrence of c in the subject is replaced by rep, left to right. -/
def replaceChar (c : Char) (rep : List Char) : List Char → List Char
  | [] => []
  | x :: xs => if x = c then rep ++ replaceChar c rep xs else x :: replaceChar c rep xs

/-- CPython html.escape with quote=True, at character-list level: five
sequential str.replace passes, ampersand first, then angle brackets,
then the two quote characters. -/
def htmlEscapeL (l : List Char) : List Char :=
  replaceChar apos "&#x27;".data
    (replaceChar quot "&quot;".data
      (replaceChar '>' "&gt;".data
        (replaceChar '<' "&lt;".data
          (replaceChar '&' "&amp;".data l))))

/-- html.escape on strings. -/
def htmlEscape (s : String) : String := ⟨htmlEscapeL s.data⟩

/-- Per-character escaping table: the replacement text a single
left-to-right escaping pass emits for one character. -/
def escapeChar (c : Char) : List Char :=
  if c = '&' then "&amp;".data
  else if c = '<' then "&lt;".data
  else if c = '>' then "&gt;".data
  else if c = quot then "&quot;".data
  else if c = apos then "&#x27;".data
  else [c]

/-- Single left-to-right escaping pass, as the specification describes it:
each character is replaced independently by its escape text, and
replacement output is never itself re-escaped. -/
def escapeOnePassL (l : List Char) : List Char := (l.map escapeChar).flatten

/-- Entity decoder for the five entities escaping produces: given the text
following an ampersand, recognise the remainder of one of the entities
amp, lt, gt, quot or x27, returning the decoded character and the text
after the entity. -/
def decodeEntity : List Char → Option (Char × List Char)
  | c1 :: c2 :: c3 :: rest3 =>
      if c1 = 'l' ∧ c2 = 't' ∧ c3 = ';' then some ('<', rest3)
      else if c1 = 'g' ∧ c2 = 't' ∧ c3 = ';' then some ('>', rest3)
      else
        match rest3 with
        | c4 :: rest4 =>
            if c1 = 'a' ∧ c2 = 'm' ∧ c3 = 'p' ∧ c4 = ';' then some ('&', rest4)
            else
              match rest4 with
              | c5 :: rest5 =>
                  if c1 = 'q' ∧ c2 = 'u' ∧ c3 = 'o' ∧ c4 = 't' ∧ c5 = ';' then
                    some (quot, rest5)
                  else if c1 = '#' ∧ c2 = 'x' ∧ c3 = '2' ∧ c4 = '7' ∧ c5 = ';' then
                    some (apos, rest5)
                  else none
              | [] => none
        | [] => none
  | _ => none

/-- HTML-unescaping restricted to the five character entities that
escaping produces: a single left-to-right pass decoding the entities
amp, lt, gt, quot and x27 back to their characters. -/
def htmlUnescapeL : List Char → List Char
  | [] => []
  | c :: cs =>
      if c = '&' then
        match h : decodeEntity cs with
        | some (d, rest) => d :: htmlUnescapeL rest
        | none => c :: htmlUnescapeL cs
      else c :: htmlUnescapeL cs
termination_by l => l.length
decreasing_by
  · simp
    unfold decodeEntity at h
    repeat' split at h
    all_goals simp_all
    all_goals omega
  · simp
  · simp

/-- HTML-unescaping on strings. -/
def htmlUnescape (s : String) : String := ⟨htmlUnescapeL s.data⟩

/-- Left-to-right scan for a raw (unescaped) occurrence of one of the five
HTML-significant characters: characters belonging to one of the five
escape entities are consumed as the entity; any other occurrence of a
special character is raw. -/
def hasRawSpecial : List Char → Bool
  | [] => false
  | c :: cs =>
      if c = '&' then
        match h : decodeEntity cs with
        | some (_, rest) => hasRawSpecial rest
        | none => true
      else if c ∈ specialChars then true else hasRawSpecial cs
termination_by l => l.length
decreasing_by
  · simp
    unfold decodeEntity at h
    repeat' split at h
    all_goals simp_all
    all_goals omega
  · simp

/-- The example cell value O&#39;Brien & <Sons> from the specification
(the second character is an apostrophe). -/
def oBrienCell : String := "O" ++ ⟨[apos]⟩ ++ "Brien & <Sons>"

-- ## The renderer and the program

/-- Markup for one table cell: the f-string td-open, escaped cell, td-close. -/
def tdCell (cell : String) : String := "<td>" ++ htmlEscape cell ++ "</td>"

/-- Python str.join with empty separator over the per-cell markup of a row. -/
def tdCells : List String → String
  | [] => ""
  | cell :: cells => tdCell cell ++ tdCells cells

/-- One rendered row line: two-space indent, tr-open, the cells, tr-close,
and the newline that terminates the line. -/
def renderRow (row : List String) : String := "  <tr>" ++ tdCells row ++ "</tr>\n"

/-- The accumulation loop of the program: the string table starts as the
opening tag line, each iteration appends one rendered row line, and the
closing tag is appended after the loop. -/
def renderTable (rows : List (List String)) : String :=
  rows.foldl (fun t row => t ++ renderRow row) "<table>\n" ++ "</table>"

/-- The hard-coded dataset, with the formatted timestamp of the second row
kept as a parameter (it is the one external input of the program). -/
def data (ts : String) : List (List String) :=
  [["KEY", "SUMMARY", "STATUS", "PARENT", "RESOLVED"],
   ["ABC-1", "Something", "In Progress", "ABC", ts]]

/-- The string the program binds to the variable table. -/
def table (ts : String) : String := renderTable (data ts)

/-- The complete text print(table) writes to standard output: the argument
followed by the newline terminator that print appends. -/
def stdoutOutput (ts : String) : String := table ts ++ "\n"

/-- Structural concatenation of the rendered row lines. -/
def rowsConcat : List (List String) → String
  | [] => ""
  | r :: rs => renderRow r ++ rowsConcat rs

-- ## Counting substring occurrences

/-- Number of occurrences of pat as a contiguous substring of the subject,
one counted at every start position where pat is a prefix of the rest. -/
def countOccs (pat : List Char) : List Char → Nat
  | [] => 0
  | c :: cs => (if pat.isPrefixOf (c :: cs) then 1 else 0) + countOccs pat cs

-- ## Clock model and dynamically typed cells

/-- A local wall-clock reading: the datetime fields the format string of
the program uses. -/
structure LocalTime where
  year : Nat
  month : Nat
  day : Nat
  hour : Nat
  minute : Nat

/-- datetime.strftime with the format of the program: zero-padded decimal
digits of the year (width 4) and of month, day, hour and minute (width 2),
with dash, space and colon separators.  Faithful to the Python library on
the valid datetime range (year between 1 and 9999, fields in range). -/
def strftimeYmdHM (t : LocalTime) : String :=
  ⟨[Nat.digitChar (t.year / 1000 % 10), Nat.digitChar (t.year / 100 % 10),
    Nat.digitChar (t.year / 10 % 10), Nat.digitChar (t.year % 10), '-',
    Nat.digitChar (t.month / 10 % 10), Nat.digitChar (t.month % 10), '-',
    Nat.digitChar (t.day / 10 % 10), Nat.digitChar (t.day % 10), ' ',
    Nat.digitChar (t.hour / 10 % 10), Nat.digitChar (t.hour % 10), ':',
    Nat.digitChar (t.minute / 10 % 10), Nat.digitChar (t.minute % 10)]⟩

/-- The shape YYYY-MM-DD HH:MM: exactly sixteen characters, decimal digits
at the date and time positions, with dash, dash, space and colon as the
separators. -/
def isTimestampFormat : List Char → Bool
  | [y1, y2, y3, y4, s1, m1, m2, s2, d1, d2, s3, h1, h2, s4, n1, n2] =>
      y1.isDigit && y2.isDigit && y3.isDigit && y4.isDigit && s1 == '-' &&
      m1.isDigit && m2.isDigit && s2 == '-' && d1.isDigit && d2.isDigit &&
      s3 == ' ' && h1.isDigit && h2.isDigit && s4 == ':' && n1.isDigit && n2.isDigit
  | _ => false

/-- A Python value that may occupy a cell: a string or a non-string (an
integer stands in for the non-string case). -/
inductive PyVal where
  | str : String → PyVal
  | int : Int → PyVal

/-- html.escape applied to a dynamically typed cell: CPython immediately
calls the replace method of its argument, so a string is escaped and an
integer raises AttributeError; no stringification takes place first. -/
def pyEscape : PyVal → Except String String
  | .str s => .ok (htmlEscape s)
  | .int _ => .error "AttributeError"

/-- The per-row cell join over dynamically typed cells; the first failing
cell aborts the computation, as the exception would. -/
def tdCellsV : List PyVal → Except String String
  | [] => .ok ""
  | c :: cs =>
      match pyEscape c with
      | .error e => .error e
      | .ok esc =>
          match tdCellsV cs with
          | .error e => .error e
          | .ok rest => .ok ("<td>" ++ esc ++ "</td>" ++ rest)

/-- One row line over dynamically typed cells. -/
def renderRowV (row : List PyVal) : Except String String :=
  match tdCellsV row with
  | .error e => .error e
  | .ok cells => .ok ("  <tr>" ++ cells ++ "</tr>\n")

/-- Concatenation of the row lines over dynamically typed cells. -/
def rowsConcatV : List (List PyVal) → Except String String
  | [] => .ok ""
  | r :: rs =>
      match renderRowV r with
      | .error e => .error e
      | .ok line =>
          match rowsConcatV rs with
          | .error e => .error e
          | .ok rest => .ok (line ++ rest)

/-- The rendered table over dynamically typed cells. -/
def renderTableV (rows : List (List PyVal)) : Except String String :=
  match rowsConcatV rows with
  | .error e => .error e
  | .ok body => .ok ("<table>\n" ++ body ++ "</table>")

-- ## Lemmas about escaping

theorem replaceChar_cons (c : Char) (rep : List Char) (x : Char) (xs : List Char) :
    replaceChar c rep (x :: xs) =
      (if x = c then rep else [x]) ++ replaceChar c rep xs := by
  by_cases h : x = c <;> simp [replaceChar, h]

theorem replaceChar_append (c : Char) (rep : List Char) (a b : List Char) :
    replaceChar c rep (a ++ b) = replaceChar c rep a ++ replaceChar c rep b := by
  induction a with
  | nil => simp [replaceChar]
  | cons x xs ih =>
      by_cases h : x = c <;> simp [replaceChar, h, ih]

theorem htmlEscapeL_nil : htmlEscapeL [] = [] := rfl

theorem htmlEscapeL_cons (c : Char) (l : List Char) :
    htmlEscapeL (c :: l) = escapeChar c ++ htmlEscapeL l := by
  show replaceChar apos "&#x27;".data
      (replaceChar quot "&quot;".data
        (replaceChar '>' "&gt;".data
          (replaceChar '<' "&lt;".data
            (replaceChar '&' "&amp;".data (c :: l))))) = _
  rw [replaceChar_cons]
  rw [replaceChar_append, replaceChar_append, replaceChar_append, replaceChar_append]
  show _ ++ htmlEscapeL l = escapeChar c ++ htmlEscapeL l
  congr 1
  by_cases h1 : c = '&'
  · subst h1; decide
  by_cases h2 : c = '<'
  · subst h2; simp [replaceChar_cons, h1, escapeChar]; decide
  by_cases h3 : c = '>'
  · subst h3; simp [replaceChar_cons, h1, h2, escapeChar]; decide
  by_cases h4 : c = quot
  · subst h4; simp [replaceChar_cons, h1, h2, h3, escapeChar]; decide
  by_cases h5 : c = apos
  · subst h5; simp [replaceChar_cons, h1, h2, h3, h4, escapeChar]; decide
  · simp [replaceChar_cons, replaceChar, h1, h2, h3, h4, h5, escapeChar]

/-- The sequential-replacement implementation of escaping coincides with
the single left-to-right pass. -/
theorem htmlEscapeL_eq_onePass (l : List Char) : htmlEscapeL l = escapeOnePassL l := by
  induction l with
  | nil => rfl
  | cons c l ih => rw [htmlEscapeL_cons, ih]; simp [escapeOnePassL]

theorem escapeChar_of_safe {c : Char} (h : c ∉ specialChars) : escapeChar c = [c] := by
  simp [specialChars] at h
  simp [escapeChar, h.1, h.2.1, h.2.2.1, h.2.2.2.1, h.2.2.2.2]

/-- Escaping is the identity on strings free of the five special characters. -/
theorem htmlEscapeL_of_safe {l : List Char} (h : ∀ c ∈ l, c ∉ specialChars) :
    htmlEscapeL l = l := by
  induction l with
  | nil => rfl
  | cons c l ih =>
      rw [htmlEscapeL_cons, escapeChar_of_safe (h c (by simp))]
      simp [ih fun c hc => h c (by simp [hc])]

theorem escapeChar_amp : escapeChar '&' = ['&', 'a', 'm', 'p', ';'] := by decide

theorem escapeChar_lt : escapeChar '<' = ['&', 'l', 't', ';'] := by decide

theorem escapeChar_gt : escapeChar '>' = ['&', 'g', 't', ';'] := by decide

theorem escapeChar_quot : escapeChar quot = ['&', 'q', 'u', 'o', 't', ';'] := by decide

theorem escapeChar_apos : escapeChar apos = ['&', '#', 'x', '2', '7', ';'] := by decide

theorem escapeOnePassL_nil : escapeOnePassL [] = [] := rfl

theorem escapeOnePassL_cons (c : Char) (l : List Char) :
    escapeOnePassL (c :: l) = escapeChar c ++ escapeOnePassL l := by
  simp [escapeOnePassL]

theorem decodeEntity_amp (X : List Char) :
    decodeEntity ('a' :: 'm' :: 'p' :: ';' :: X) = some ('&', X) := rfl

theorem decodeEntity_lt (X : List Char) :
    decodeEntity ('l' :: 't' :: ';' :: X) = some ('<', X) := rfl

theorem decodeEntity_gt (X : List Char) :
    decodeEntity ('g' :: 't' :: ';' :: X) = some ('>', X) := rfl

theorem decodeEntity_quot (X : List Char) :
    decodeEntity ('q' :: 'u' :: 'o' :: 't' :: ';' :: X) = some (quot, X) := rfl

theorem decodeEntity_apos (X : List Char) :
    decodeEntity ('#' :: 'x' :: '2' :: '7' :: ';' :: X) = some (apos, X) := rfl

theorem htmlUnescapeL_cons_of_ne {c : Char} {X : List Char} (h : c ≠ '&') :
    htmlUnescapeL (c :: X) = c :: htmlUnescapeL X := by
  simp [htmlUnescapeL, h]

theorem hasRawSpecial_cons_of_safe {c : Char} {X : List Char} (h : c ∉ specialChars) :
    hasRawSpecial (c :: X) = hasRawSpecial X := by
  have h1 : c ≠ '&' := fun hc => h (by simp [specialChars, hc])
  simp [hasRawSpecial, h1, h]

/-- Unescaping undoes the single-pass escape on every string. -/
theorem htmlUnescapeL_escapeOnePassL (l : List Char) :
    htmlUnescapeL (escapeOnePassL l) = l := by
  induction l with
  | nil => simp [escapeOnePassL, htmlUnescapeL]
  | cons c l ih =>
      rw [escapeOnePassL_cons]
      by_cases h1 : c = '&'
      · subst h1; rw [escapeChar_amp]; simp [htmlUnescapeL, decodeEntity_amp, ih]
      by_cases h2 : c = '<'
      · subst h2; rw [escapeChar_lt]; simp [htmlUnescapeL, decodeEntity_lt, ih]
      by_cases h3 : c = '>'
      · subst h3; rw [escapeChar_gt]; simp [htmlUnescapeL, decodeEntity_gt, ih]
      by_cases h4 : c = quot
      · subst h4; rw [escapeChar_quot]; simp [htmlUnescapeL, decodeEntity_quot, ih]
      by_cases h5 : c = apos
      · subst h5; rw [escapeChar_apos]; simp [htmlUnescapeL, decodeEntity_apos, ih]
      · rw [escapeChar_of_safe (by simp [specialChars, h1, h2, h3, h4, h5])]
        rw [List.cons_append, List.nil_append, htmlUnescapeL_cons_of_ne h1, ih]

/-- The escaped text has no raw occurrence of a special character. -/
theorem hasRawSpecial_escapeOnePassL (l : List Char) :
    hasRawSpecial (escapeOnePassL l) = false := by
  induction l with
  | nil => simp [escapeOnePassL, hasRawSpecial]
  | cons c l ih =>
      rw [escapeOnePassL_cons]
      by_cases h1 : c = '&'
      · subst h1; rw [escapeChar_amp]; simp [hasRawSpecial, decodeEntity_amp, ih]
      by_cases h2 : c = '<'
      · subst h2; rw [escapeChar_lt]; simp [hasRawSpecial, decodeEntity_lt, ih]
      by_cases h3 : c = '>'
      · subst h3; rw [escapeChar_gt]; simp [hasRawSpecial, decodeEntity_gt, ih]
      by_cases h4 : c = quot
      · subst h4; rw [escapeChar_quot]; simp [hasRawSpecial, decodeEntity_quot, ih]
      by_cases h5 : c = apos
      · subst h5; rw [escapeChar_apos]; simp [hasRawSpecial, decodeEntity_apos, ih]
      · have hs : c ∉ specialChars := by simp [specialChars, h1, h2, h3, h4, h5]
        rw [escapeChar_of_safe hs, List.cons_append, List.nil_append,
          hasRawSpecial_cons_of_safe hs, ih]

/-- Escaped text never contains a raw angle bracket or quote character. -/
theorem escapeOnePassL_no_markup {l : List Char} :
    ∀ x ∈ escapeOnePassL l, x ∉ ['<', '>', quot, apos] := by
  induction l with
  | nil => simp [escapeOnePassL]
  | cons c l ih =>
      intro x hx
      rw [escapeOnePassL_cons] at hx
      rcases List.mem_append.1 hx with h | h
      · by_cases h1 : c = '&'
        · subst h1; rw [escapeChar_amp] at h
          simp at h
          rcases h with rfl | rfl | rfl | rfl | rfl <;> decide
        by_cases h2 : c = '<'
        · subst h2; rw [escapeChar_lt] at h
          simp at h
          rcases h with rfl | rfl | rfl | rfl <;> decide
        by_cases h3 : c = '>'
        · subst h3; rw [escapeChar_gt] at h
          simp at h
          rcases h with rfl | rfl | rfl | rfl <;> decide
        by_cases h4 : c = quot
        · subst h4; rw [escapeChar_quot] at h
          simp at h
          rcases h with rfl | rfl | rfl | rfl | rfl | rfl <;> decide
        by_cases h5 : c = apos
        · subst h5; rw [escapeChar_apos] at h
          simp at h
          rcases h with rfl | rfl | rfl | rfl | rfl | rfl <;> decide
        · have hs : c ∉ specialChars := by simp [specialChars, h1, h2, h3, h4, h5]
          rw [escapeChar_of_safe hs] at h
          simp at h
          subst h
          intro hmem
          apply hs
          simp [specialChars] at hmem ⊢
          tauto
      · exact ih x h

theorem foldl_renderRow (rows : List (List String)) (init : String) :
    rows.foldl (fun t row => t ++ renderRow row) init = init ++ rowsConcat rows := by
  induction rows generalizing init with
  | nil => simp [rowsConcat, List.foldl, String.append_empty]
  | cons r rs ih =>
      simp only [List.foldl, rowsConcat]
      rw [ih, String.append_assoc]

/-- The loop-built table string, written as the opening line, the
concatenated row lines, and the closing tag. -/
theorem renderTable_eq (rows : List (List String)) :
    renderTable rows = "<table>\n" ++ rowsConcat rows ++ "</table>" := by
  rw [renderTable, foldl_renderRow, String.append_assoc]

theorem isPrefixOf_append_of_le {p l : List Char} (b : List Char)
    (h : p.length ≤ l.length) : p.isPrefixOf (l ++ b) = p.isPrefixOf l := by
  induction p generalizing l with
  | nil => simp [List.isPrefixOf]
  | cons q ps ih =>
      cases l with
      | nil => simp at h
      | cons c ls =>
          simp only [List.cons_append, List.isPrefixOf, List.append_eq]
          rw [ih (by simpa using h)]

/-- Splitting an occurrence count at a concatenation boundary: sound when
no occurrence can straddle the boundary, which holds whenever the head
character of the pattern does not appear in the final window of the left
part (the last positions whose occurrence window would overflow it). -/
theorem countOccs_append {p₀ : Char} {p : List Char} (a b : List Char)
    (hsafe : ∀ i, a.length ≤ i + p.length → a.get? i ≠ some p₀) :
    countOccs (p₀ :: p) (a ++ b) = countOccs (p₀ :: p) a + countOccs (p₀ :: p) b := by
  induction a with
  | nil => simp [countOccs]
  | cons c as ih =>
      have hsafe' : ∀ i, as.length ≤ i + p.length → as.get? i ≠ some p₀ := by
        intro i hi
        have := hsafe (i + 1) (by simp; omega)
        simpa using this
      rw [List.cons_append]
      simp only [countOccs]
      rw [ih hsafe']
      by_cases hlen : p.length ≤ as.length
      · have : (p₀ :: p).isPrefixOf (c :: (as ++ b)) = (p₀ :: p).isPrefixOf (c :: as) := by
          have := @isPrefixOf_append_of_le (p₀ :: p) (c :: as) b (by simp; omega)
          simpa using this
        rw [this]; omega
      · have hc : c ≠ p₀ := by
          have := hsafe 0 (by simp; omega)
          simpa using this
        have hbeq : (p₀ == c) = false := by
          simp [BEq.beq]
          exact fun hp => hc hp.symm
        simp [List.isPrefixOf, hbeq]

/-- A pattern whose head character never occurs in the subject has no
occurrence at all. -/
theorem countOccs_eq_zero_of_not_mem {p₀ : Char} {p l : List Char}
    (h : p₀ ∉ l) : countOccs (p₀ :: p) l = 0 := by
  induction l with
  | nil => rfl
  | cons c cs ih =>
      have hc : c ≠ p₀ := fun hc => h (by simp [hc])
      have hbeq : (p₀ == c) = false := by
        simp [BEq.beq]
        exact fun hp => hc hp.symm
      simp only [countOccs, List.isPrefixOf, hbeq, Bool.false_and, if_neg Bool.false_ne_true]
      simpa using ih (fun hm => h (by simp [hm]))

/-- Transfer of boundary safety from a bounded check on a concrete tail. -/
theorem safeTail_bounded {p₀ : Char} {k : Nat} (t : List Char)
    (h : ∀ j, j < t.length → t.length ≤ j + k → t.get? j ≠ some p₀) :
    ∀ j, t.length ≤ j + k → t.get? j ≠ some p₀ := by
  intro j hj
  by_cases hlt : j < t.length
  · exact h j hlt hj
  · rw [List.get?_eq_none.2 (le_of_not_lt hlt)]; simp

/-- Boundary safety of a left part that ends in a concrete tail whose final
window is free of the pattern head. -/
theorem safeTail_append {p₀ : Char} {k : Nat} (y t : List Char)
    (hk : k ≤ t.length)
    (ht : ∀ j, t.length ≤ j + k → t.get? j ≠ some p₀) :
    ∀ i, (y ++ t).length ≤ i + k → (y ++ t).get? i ≠ some p₀ := by
  intro i hi
  rw [List.length_append] at hi
  by_cases hy : y.length ≤ i
  · rw [List.get?_append_right hy]
    exact ht _ (by omega)
  · exfalso; omega

/-- Boundary safety of a left part that avoids the pattern head entirely. -/
theorem safeTail_of_not_mem {p₀ : Char} {k : Nat} {a : List Char}
    (h : p₀ ∉ a) : ∀ i, a.length ≤ i + k → a.get? i ≠ some p₀ := by
  intro i _ hget
  exact h (List.get?_mem hget)

-- ## Counting markup occurrences in rendered output

theorem lt_not_mem_htmlEscape (s : String) : '<' ∉ (htmlEscape s).data := by
  intro h
  have h2 : '<' ∈ htmlEscapeL s.data := h
  rw [htmlEscapeL_eq_onePass] at h2
  exact escapeOnePassL_no_markup _ h2 (by decide)

theorem tdCell_shape (c : String) :
    (tdCell c).data = "<td>".data ++ ((htmlEscape c).data ++ "</td>".data) := by
  show (("<td>" ++ htmlEscape c) ++ "</td>").data = _
  rw [String.data_append, String.data_append, List.append_assoc]

theorem safe_tdCell (c : String) :
    ∀ i, (tdCell c).data.length ≤ i + 3 → (tdCell c).data.get? i ≠ some '<' := by
  have hshape : (tdCell c).data = ("<td>".data ++ (htmlEscape c).data) ++ "</td>".data := by
    rw [tdCell_shape, List.append_assoc]
  rw [hshape]
  apply safeTail_append _ _ (by decide)
  apply safeTail_bounded
  decide

theorem countOccs_td_tdCell (c : String) :
    countOccs ['<', 't', 'd', '>'] (tdCell c).data = 1 := by
  rw [tdCell_shape]
  rw [@countOccs_append '<' ['t', 'd', '>'] _ _
    (safeTail_bounded _ (by decide))]
  rw [@countOccs_append '<' ['t', 'd', '>'] _ _
    (safeTail_of_not_mem (lt_not_mem_htmlEscape c))]
  rw [countOccs_eq_zero_of_not_mem (lt_not_mem_htmlEscape c)]
  decide

theorem countOccs_tr_tdCell (c : String) :
    countOccs ['<', 't', 'r', '>'] (tdCell c).data = 0 := by
  rw [tdCell_shape]
  rw [@countOccs_append '<' ['t', 'r', '>'] _ _
    (safeTail_bounded _ (by decide))]
  rw [@countOccs_append '<' ['t', 'r', '>'] _ _
    (safeTail_of_not_mem (lt_not_mem_htmlEscape c))]
  rw [countOccs_eq_zero_of_not_mem (lt_not_mem_htmlEscape c)]
  decide

theorem countOccs_td_cells_tail (r : List String) (t : List Char)
    (ht : countOccs ['<', 't', 'd', '>'] t = 0) :
    countOccs ['<', 't', 'd', '>'] ((tdCells r).data ++ t) = r.length := by
  induction r with
  | nil => show countOccs _ ([] ++ t) = 0; rw [List.nil_append, ht]
  | cons c cs ih =>
      have hdata : (tdCells (c :: cs)).data = (tdCell c).data ++ (tdCells cs).data := by
        show (tdCell c ++ tdCells cs).data = _
        rw [String.data_append]
      rw [hdata, List.append_assoc]
      rw [@countOccs_append '<' ['t', 'd', '>'] _ _ (safe_tdCell c)]
      rw [countOccs_td_tdCell, ih]
      simp only [List.length_cons]
      omega

theorem countOccs_tr_cells_tail (r : List String) (t : List Char)
    (ht : countOccs ['<', 't', 'r', '>'] t = 0) :
    countOccs ['<', 't', 'r', '>'] ((tdCells r).data ++ t) = 0 := by
  induction r with
  | nil => show countOccs _ ([] ++ t) = 0; rw [List.nil_append, ht]
  | cons c cs ih =>
      have hdata : (tdCells (c :: cs)).data = (tdCell c).data ++ (tdCells cs).data := by
        show (tdCell c ++ tdCells cs).data = _
        rw [String.data_append]
      rw [hdata, List.append_assoc]
      rw [@countOccs_append '<' ['t', 'r', '>'] _ _ (safe_tdCell c)]
      rw [countOccs_tr_tdCell, ih]

theorem renderRow_shape (r : List String) :
    (renderRow r).data = "  <tr>".data ++ ((tdCells r).data ++ "</tr>\n".data) := by
  show (("  <tr>" ++ tdCells r) ++ "</tr>\n").data = _
  rw [String.data_append, String.data_append, List.append_assoc]

/-- Each rendered row line contains exactly one cell marker per cell. -/
theorem countOccs_td_renderRow (r : List String) :
    countOccs ['<', 't', 'd', '>'] (renderRow r).data = r.length := by
  rw [renderRow_shape]
  rw [@countOccs_append '<' ['t', 'd', '>'] _ _
    (safeTail_bounded _ (by decide))]
  have h0 : countOccs ['<', 't', 'd', '>'] "  <tr>".data = 0 := by decide
  rw [h0, countOccs_td_cells_tail r ("</tr>\n".data) (by decide)]
  omega

/-- Each rendered row line contains exactly one row marker. -/
theorem countOccs_tr_renderRow (r : List String) :
    countOccs ['<', 't', 'r', '>'] (renderRow r).data = 1 := by
  rw [renderRow_shape]
  rw [@countOccs_append '<' ['t', 'r', '>'] _ _
    (safeTail_bounded _ (by decide))]
  have h0 : countOccs ['<', 't', 'r', '>'] "  <tr>".data = 1 := by decide
  rw [h0, countOccs_tr_cells_tail r ("</tr>\n".data) (by decide)]

theorem safe_renderRow (r : List String) :
    ∀ i, (renderRow r).data.length ≤ i + 3 → (renderRow r).data.get? i ≠ some '<' := by
  have hshape : (renderRow r).data = ("  <tr>" ++ tdCells r).data ++ "</tr>\n".data := by
    show (("  <tr>" ++ tdCells r) ++ "</tr>\n").data = _
    rw [String.data_append]
  rw [hshape]
  apply safeTail_append _ _ (by decide)
  apply safeTail_bounded
  decide

theorem countOccs_tr_rowsConcat (rows : List (List String)) (t : List Char)
    (ht : countOccs ['<', 't', 'r', '>'] t = 0) :
    countOccs ['<', 't', 'r', '>'] ((rowsConcat rows).data ++ t) = rows.length := by
  induction rows with
  | nil => show countOccs _ ([] ++ t) = 0; rw [List.nil_append, ht]
  | cons r rs ih =>
      have hdata : (rowsConcat (r :: rs)).data = (renderRow r).data ++ (rowsConcat rs).data := by
        show (renderRow r ++ rowsConcat rs).data = _
        rw [String.data_append]
      rw [hdata, List.append_assoc]
      rw [@countOccs_append '<' ['t', 'r', '>'] _ _ (safe_renderRow r)]
      rw [countOccs_tr_renderRow, ih]
      simp only [List.length_cons]
      omega

/-- The rendered table contains exactly one row marker per input row. -/
theorem countOccs_tr_renderTable (rows : List (List String)) :
    countOccs ['<', 't', 'r', '>'] (renderTable rows).data = rows.length := by
  have hdata : (renderTable rows).data =
      "<table>\n".data ++ ((rowsConcat rows).data ++ "</table>".data) := by
    rw [renderTable_eq]
    show (("<table>\n" ++ rowsConcat rows) ++ "</table>").data = _
    rw [String.data_append, String.data_append, List.append_assoc]
  rw [hdata]
  rw [@countOccs_append '<' ['t', 'r', '>'] _ _
    (safeTail_bounded _ (by decide))]
  have h0 : countOccs ['<', 't', 'r', '>'] "<table>\n".data = 0 := by decide
  rw [h0, countOccs_tr_rowsConcat rows ("</table>".data) (by decide)]
  omega

-- ## Timestamp and dynamic-cell lemmas

theorem digitChar_mod_isDigit (n : Nat) : (Nat.digitChar (n % 10)).isDigit = true := by
  have h : n % 10 < 10 := Nat.mod_lt _ (by omega)
  revert h
  generalize n % 10 = k
  intro h
  interval_cases k <;> decide

theorem tdCellsV_str (r : List String) :
    tdCellsV (r.map PyVal.str) = Except.ok (tdCells r) := by
  induction r with
  | nil => rfl
  | cons c cs ih => simp only [List.map, tdCellsV, pyEscape, ih, tdCells, tdCell]

theorem renderRowV_str (r : List String) :
    renderRowV (r.map PyVal.str) = Except.ok (renderRow r) := by
  simp only [renderRowV, tdCellsV_str, renderRow]

theorem rowsConcatV_str (rows : List (List String)) :
    rowsConcatV (rows.map fun r => r.map PyVal.str) = Except.ok (rowsConcat rows) := by
  induction rows with
  | nil => rfl
  | cons r rs ih => simp only [List.map, rowsConcatV, renderRowV_str, ih, rowsConcat]

theorem renderTableV_str (rows : List (List String)) :
    renderTableV (rows.map fun r => r.map PyVal.str) = Except.ok (renderTable rows) := by
  simp only [renderTableV, rowsConcatV_str]
  rw [renderTable_eq]

-- ## The claims

set_option maxRecDepth 4000 in
/-- Claim C1: for the hard-coded two-row dataset, with the timestamp cell
treated as a free variable (free of special characters, as every actual
timestamp is), the rendered table string is exactly the literal table
from the specification with the timestamp spliced into the last cell. -/
theorem c1_literal_scenario (ts : String) (hsafe : ∀ c ∈ ts.data, c ∉ specialChars) :
    table ts =
      "<table>\n  <tr><td>KEY</td><td>SUMMARY</td><td>STATUS</td><td>PARENT</td><td>RESOLVED</td></tr>\n  <tr><td>ABC-1</td><td>Something</td><td>In Progress</td><td>ABC</td><td>" ++
        ts ++ "</td></tr>\n</table>" := by
  have hts : htmlEscape ts = ts := String.ext (htmlEscapeL_of_safe hsafe)
  have e1 : htmlEscape "KEY" = "KEY" := by decide
  have e2 : htmlEscape "SUMMARY" = "SUMMARY" := by decide
  have e3 : htmlEscape "STATUS" = "STATUS" := by decide
  have e4 : htmlEscape "PARENT" = "PARENT" := by decide
  have e5 : htmlEscape "RESOLVED" = "RESOLVED" := by decide
  have e6 : htmlEscape "ABC-1" = "ABC-1" := by decide
  have e7 : htmlEscape "Something" = "Something" := by decide
  have e8 : htmlEscape "In Progress" = "In Progress" := by decide
  have e9 : htmlEscape "ABC" = "ABC" := by decide
  have hP :
      ("<table>\n  <tr><td>KEY</td><td>SUMMARY</td><td>STATUS</td><td>PARENT</td><td>RESOLVED</td></tr>\n  <tr><td>ABC-1</td><td>Something</td><td>In Progress</td><td>ABC</td><td>" : String) =
        "<table>\n" ++ "  <tr>" ++ "<td>" ++ "KEY" ++ "</td>" ++ "<td>" ++ "SUMMARY" ++ "</td>" ++
          "<td>" ++ "STATUS" ++ "</td>" ++ "<td>" ++ "PARENT" ++ "</td>" ++ "<td>" ++ "RESOLVED" ++
          "</td>" ++ "</tr>\n" ++ "  <tr>" ++ "<td>" ++ "ABC-1" ++ "</td>" ++ "<td>" ++ "Something" ++
          "</td>" ++ "<td>" ++ "In Progress" ++ "</td>" ++ "<td>" ++ "ABC" ++ "</td>" ++ "<td>" := by
    decide
  have hS : ("</td></tr>\n</table>" : String) = "</td>" ++ "</tr>\n" ++ "</table>" := by decide
  rw [hP, hS]
  simp only [table, renderTable_eq, data, rowsConcat, renderRow, tdCells, tdCell,
    hts, e1, e2, e3, e4, e5, e6, e7, e8, e9, String.append_empty, String.append_assoc]

/-- Witness for C1 at a concrete timestamp value. -/
theorem c1_witness :
    (∀ c ∈ ("2026-10-12 09:30" : String).data, c ∉ specialChars) ∧
    table "2026-10-12 09:30" =
      "<table>\n  <tr><td>KEY</td><td>SUMMARY</td><td>STATUS</td><td>PARENT</td><td>RESOLVED</td></tr>\n  <tr><td>ABC-1</td><td>Something</td><td>In Progress</td><td>ABC</td><td>" ++
        "2026-10-12 09:30" ++ "</td></tr>\n</table>" :=
  ⟨by decide, c1_literal_scenario "2026-10-12 09:30" (by decide)⟩

/-- Claim C2: escaping replaces exactly the five HTML-significant
characters by their entities, as a single left-to-right pass whose output
is never re-escaped; in particular the example cell with apostrophe,
ampersand and angle brackets escapes to the expected entity form. -/
theorem c2_escape_single_pass :
    (∀ s : String, htmlEscape s = ⟨escapeOnePassL s.data⟩) ∧
    htmlEscape oBrienCell = "O&#x27;Brien &amp; &lt;Sons&gt;" :=
  ⟨fun s => String.ext (htmlEscapeL_eq_onePass s.data), by decide⟩

/-- Counterexample to C3 as stated: at a concrete run the text written to
standard output does not end with the closing table tag, because print
appends a newline after it. -/
theorem c3_counterexample :
    "</table>".data.isSuffixOf (stdoutOutput "2026-10-12 09:30").data = false := by
  decide

/-- Claim C3 (amended): the rendered table string ends with the closing
table tag and no trailing newline, and the program writes that string to
standard output followed by one newline appended by print, so the stdout
document ends with a newline after the closing tag. -/
theorem c3_amended (ts : String) :
    stdoutOutput ts = table ts ++ "\n" ∧
    "</table>".data.isSuffixOf (table ts).data = true ∧
    (stdoutOutput ts).data.getLast? = some '\n' := by
  refine ⟨rfl, ?_, ?_⟩
  · have hdata : (table ts).data =
        ("<table>\n" ++ rowsConcat (data ts)).data ++ "</table>".data := by
      show (renderTable (data ts)).data = _
      rw [renderTable_eq]
      show (("<table>\n" ++ rowsConcat (data ts)) ++ "</table>").data = _
      rw [String.data_append]
    rw [hdata]
    exact List.isSuffixOf_iff_suffix.mpr (List.suffix_append _ _)
  · show (table ts ++ "\n").data.getLast? = some '\n'
    rw [String.data_append]
    show ((table ts).data ++ ['\n']).getLast? = some '\n'
    rw [List.getLast?_concat]

/-- Counterexample to C4 as stated: the empty-input output is not a
9-character string. -/
theorem c4_counterexample : (renderTable []).length ≠ 9 := by decide

/-- Claim C4 (amended): on zero rows the rendered output is exactly the
string of the opening tag line and the closing tag, which has 16
characters, not 9. -/
theorem c4_amended :
    renderTable [] = "<table>\n</table>" ∧ (renderTable []).length = 16 :=
  ⟨by decide, by decide⟩

/-- Claim C5: the output contains one tr marker per input row, the output
decomposes into the opening line, the row lines in order and the closing
tag, and the i-th row line contains one td marker per cell of the i-th
input row. -/
theorem c5_structural_invariant (rows : List (List String)) :
    countOccs "<tr>".data (renderTable rows).data = rows.length ∧
    renderTable rows = "<table>\n" ++ rowsConcat rows ++ "</table>" ∧
    ∀ i (h : i < rows.length),
      countOccs "<td>".data (renderRow (rows.get ⟨i, h⟩)).data = (rows.get ⟨i, h⟩).length := by
  refine ⟨?_, renderTable_eq rows, ?_⟩
  · show countOccs ['<', 't', 'r', '>'] (renderTable rows).data = rows.length
    exact countOccs_tr_renderTable rows
  · intro i h
    show countOccs ['<', 't', 'd', '>'] (renderRow (rows.get ⟨i, h⟩)).data =
      (rows.get ⟨i, h⟩).length
    exact countOccs_td_renderRow _

/-- Witness for C5 on a concrete two-row ragged table. -/
theorem c5_witness :
    countOccs "<tr>".data (renderTable [["x"], ["y", "z"]]).data =
      ([["x"], ["y", "z"]] : List (List String)).length ∧
    countOccs "<td>".data (renderRow ([["x"], ["y", "z"]].get ⟨1, by decide⟩)).data =
      ([["x"], ["y", "z"]].get ⟨1, by decide⟩).length :=
  ⟨(c5_structural_invariant [["x"], ["y", "z"]]).1,
   (c5_structural_invariant [["x"], ["y", "z"]]).2.2 1 (by decide)⟩

/-- Claim C6: for a string containing a special character, the escaped
text has no raw angle bracket or quote character, its only special
characters are the ampersands opening the five escape entities, and
HTML-unescaping the escaped text returns the original string. -/
theorem c6_escape_roundtrip (s : String) (h : ∃ c ∈ s.data, c ∈ specialChars) :
    (∀ c ∈ (htmlEscape s).data, c ∉ ['<', '>', quot, apos]) ∧
    hasRawSpecial (htmlEscape s).data = false ∧
    htmlUnescape (htmlEscape s) = s := by
  refine ⟨?_, ?_, ?_⟩
  · intro c hc
    have hc2 : c ∈ escapeOnePassL s.data := by
      have hdata : (htmlEscape s).data = escapeOnePassL s.data := htmlEscapeL_eq_onePass s.data
      rwa [hdata] at hc
    exact escapeOnePassL_no_markup c hc2
  · show hasRawSpecial (htmlEscapeL s.data) = false
    rw [htmlEscapeL_eq_onePass]
    exact hasRawSpecial_escapeOnePassL _
  · apply String.ext
    show htmlUnescapeL (htmlEscapeL s.data) = s.data
    rw [htmlEscapeL_eq_onePass]
    exact htmlUnescapeL_escapeOnePassL _

/-- Witness for C6 on a string containing an ampersand. -/
theorem c6_witness :
    (∃ c ∈ ("a&b" : String).data, c ∈ specialChars) ∧
    htmlUnescape (htmlEscape "a&b") = "a&b" :=
  ⟨by decide, (c6_escape_roundtrip "a&b" (by decide)).2.2⟩

/-- Claim C7: escaping is the identity on every string that contains none
of the five special characters. -/
theorem c7_escape_identity (s : String) (h : ∀ c ∈ s.data, c ∉ specialChars) :
    htmlEscape s = s :=
  String.ext (htmlEscapeL_of_safe h)

/-- Witness for C7 on a safe string. -/
theorem c7_witness :
    (∀ c ∈ ("hello" : String).data, c ∉ specialChars) ∧ htmlEscape "hello" = "hello" :=
  ⟨by decide, c7_escape_identity "hello" (by decide)⟩

/-- Claim C8: the last cell of the single data row is the formatted clock
reading, and for every valid clock reading the formatted string matches
the pattern YYYY-MM-DD HH:MM with zero-padded decimal fields. -/
theorem c8_timestamp_format (t : LocalTime)
    (hy : 1 ≤ t.year ∧ t.year ≤ 9999) (hm : 1 ≤ t.month ∧ t.month ≤ 12)
    (hd : 1 ≤ t.day ∧ t.day ≤ 31) (hh : t.hour < 24) (hn : t.minute < 60) :
    (data (strftimeYmdHM t)).get? 1 =
      some ["ABC-1", "Something", "In Progress", "ABC", strftimeYmdHM t] ∧
    ["ABC-1", "Something", "In Progress", "ABC", strftimeYmdHM t].getLast? =
      some (strftimeYmdHM t) ∧
    isTimestampFormat (strftimeYmdHM t).data = true := by
  refine ⟨rfl, rfl, ?_⟩
  show isTimestampFormat
    [Nat.digitChar (t.year / 1000 % 10), Nat.digitChar (t.year / 100 % 10),
     Nat.digitChar (t.year / 10 % 10), Nat.digitChar (t.year % 10), '-',
     Nat.digitChar (t.month / 10 % 10), Nat.digitChar (t.month % 10), '-',
     Nat.digitChar (t.day / 10 % 10), Nat.digitChar (t.day % 10), ' ',
     Nat.digitChar (t.hour / 10 % 10), Nat.digitChar (t.hour % 10), ':',
     Nat.digitChar (t.minute / 10 % 10), Nat.digitChar (t.minute % 10)] = true
  simp [isTimestampFormat, digitChar_mod_isDigit]

/-- Witness for C8 at a concrete clock reading. -/
theorem c8_witness :
    ((1 : Nat) ≤ 2026 ∧ (2026 : Nat) ≤ 9999) ∧
    isTimestampFormat (strftimeYmdHM ⟨2026, 10, 12, 9, 30⟩).data = true :=
  ⟨by decide,
   (c8_timestamp_format ⟨2026, 10, 12, 9, 30⟩ (by decide) (by decide) (by decide)
     (by decide) (by decide)).2.2⟩

/-- Counterexample to C9 as stated: a non-string cell is not stringified
and rendered; escaping it fails, so the renderer rejects the row instead
of producing the table with the decimal form of the number. -/
theorem c9_counterexample :
    renderTableV [[PyVal.int 5]] = Except.error "AttributeError" ∧
    renderTableV [[PyVal.int 5]] ≠
      Except.ok "<table>\n  <tr><td>5</td></tr>\n</table>" :=
  ⟨rfl, fun h => Except.noConfusion h⟩

/-- Claim C9 (amended): cells are escaped directly with no stringification
step: on rows of string cells the dynamic renderer agrees with the string
renderer, and escaping a non-string cell raises a type error instead of
operating on its string form. -/
theorem c9_amended (rows : List (List String)) :
    renderTableV (rows.map fun r => r.map PyVal.str) = Except.ok (renderTable rows) ∧
    ∀ n : Int, pyEscape (PyVal.int n) = Except.error "AttributeError" :=
  ⟨renderTableV_str rows, fun _ => rfl⟩

/-- Claim C10: the text written to standard output is a deterministic
function of the formatted clock reading: two runs whose clock readings
format to the same string write byte-identical output. -/
theorem c10_determinism (t1 t2 : LocalTime)
    (h : strftimeYmdHM t1 = strftimeYmdHM t2) :
    stdoutOutput (strftimeYmdHM t1) = stdoutOutput (strftimeYmdHM t2) := by
  rw [h]

/-- Witness for C10 at two equal concrete clock readings. -/
theorem c10_witness :
    strftimeYmdHM ⟨2026, 10, 12, 9, 30⟩ = strftimeYmdHM ⟨2026, 10, 12, 9, 30⟩ ∧
    stdoutOutput (strftimeYmdHM ⟨2026, 10, 12, 9, 30⟩) =
      stdoutOutput (strftimeYmdHM ⟨2026, 10, 12, 9, 30⟩) :=
  ⟨rfl, c10_determinism ⟨2026, 10, 12, 9, 30⟩ ⟨2026, 10, 12, 9, 30⟩ rfl⟩

end Wkreport
